import Mathlib

/-!
Shallow embedding of `src/backend/scripts/train_models.py` (class
`FinGeniusMLTrainer`): synthetic data generators, the four trainer
methods, the persistence layer (`save_models` / `load_models`) and the
driver (`train_all_models`).

Modelling conventions:
* Opaque fitted estimator objects (sklearn models, scalers, vectorizers)
  are values of `PyObj`; Python `None` is `PyObj.pynone`.  The behaviour
  of the third-party ML library (fit / score / predict / transform /
  split) is a parameter `MLLib`, since the library internals are outside
  this repository.
* Python dicts keyed by strings are association lists with Python's
  insert-or-overwrite semantics (`dinsert`), preserving insertion order.
* `joblib.dump`/`joblib.load` round-trip a value exactly; the file
  system is an association list from file names to stored values plus an
  optional manifest (`metadata.json` is a distinguished entry).
* `np.random` is modelled as an explicit PRNG state threaded through the
  generators; `np.random.seed 42` resets the state to a fixed value, as
  in the source.  Distribution sampling (`normal`, `uniform`, `randint`)
  maps raw PRNG output into the requested range; float transcendentals
  (`np.sin`) are replaced by a fixed rational surrogate.  No claim
  depends on the numeric values of generated cells, only on shapes,
  label counts and determinism.
* `int(n_samples * 0.8)` is modelled as exact `(n * 8) / 10` (natural
  floor division), which agrees with the IEEE-double computation for all
  realistic sample counts.
-/

/-- A Python runtime object held in the trainer's mappings: either
`None` or an opaque (tagged) fitted-estimator object. -/
inductive PyObj where
  | pynone
  | obj (tag : Nat)
deriving DecidableEq, Repr

/-- Feature matrices (`ndarray` of shape rows × features) as lists of
rational rows. -/
abbrev Mat := List (List ℚ)

/-- Label / feature vectors as lists of rationals. -/
abbrev Vec := List ℚ

/-- Python-dict lookup on an association list (first binding wins, as a
dict has unique keys). -/
def dlookup (k : String) : List (String × PyObj) → Option PyObj
  | [] => Option.none
  | (k', v) :: rest => if k' = k then some v else dlookup k rest

/-- Python-dict assignment `d[k] = v`: overwrite the first binding of
`k` in place, otherwise append at the end (insertion order). -/
def dinsert (k : String) (v : PyObj) : List (String × PyObj) → List (String × PyObj)
  | [] => [(k, v)]
  | (k', v') :: rest => if k' = k then (k', v) :: rest else (k', v') :: dinsert k v rest

/-- The key list of a dict, in insertion order (`list(d.keys())`). -/
def dkeys (d : List (String × PyObj)) : List String := d.map Prod.fst

/-- One step of the PRNG state (a 31-bit linear congruential generator
standing in for numpy's Mersenne twister). -/
def lcgNext (s : Nat) : Nat := (1103515245 * s + 12345) % 2147483648

/-- Model of `np.random.seed 42`: reset the PRNG to the fixed state the source
seeds at the top of every sub-generator. -/
def npSeed (n : Nat) : Nat := lcgNext n

/-- Draw one raw PRNG output, returning the value and the next state. -/
def draw (s : Nat) : Nat × Nat :=
  let s' := lcgNext s
  (s', s')

/-- Draw a vector of `n` raw PRNG outputs. -/
def drawVec : Nat → Nat → List Nat × Nat
  | 0, s => ([], s)
  | n + 1, s =>
      let (x, s') := draw s
      let (xs, s'') := drawVec n s'
      (x :: xs, s'')

/-- Map a raw PRNG output into `[0, 1)` as a rational. -/
def toUnit (x : Nat) : ℚ := (x : ℚ) / 2147483648

/-- Model of `np.random.normal mu sigma n`: `n` draws shifted/scaled by the
requested mean and deviation (distribution shape abstracted). -/
def normalDraws (mu sigma : ℚ) (n : Nat) (s : Nat) : Vec × Nat :=
  let (xs, s') := drawVec n s
  (xs.map (fun x => mu + sigma * toUnit x), s')

/-- Model of `np.random.uniform lo hi n`: `n` draws mapped into `[lo, hi)`. -/
def uniformDraws (lo hi : ℚ) (n : Nat) (s : Nat) : Vec × Nat :=
  let (xs, s') := drawVec n s
  (xs.map (fun x => lo + (hi - lo) * toUnit x), s')

/-- Model of `np.random.randint lo hi n`: `n` integer draws in `[lo, hi)`,
stored as rationals (numpy columns are numeric). -/
def randintDraws (lo hi : Nat) (n : Nat) (s : Nat) : Vec × Nat :=
  let (xs, s') := drawVec n s
  (xs.map (fun x => ((lo + x % (hi - lo) : Nat) : ℚ)), s')

/-- The fraud table: 10 numeric feature columns plus the binary
`is_fraud` label column, as produced by `_generate_fraud_data`. -/
structure FraudTable where
  amount : Vec
  hour : Vec
  day_of_week : Vec
  location_similarity : Vec
  merchant_category : Vec
  user_behavior_score : Vec
  device_fingerprint : Vec
  transaction_frequency : Vec
  amount_pattern : Vec
  time_pattern : Vec
  is_fraud : Vec
deriving DecidableEq, Repr

/-- Model of `int(n_samples * 0.8)`: the normal-transaction count (exact
floor-division model of the float computation). -/
def nNormal (n : Nat) : Nat := n * 8 / 10

/-- Model of `FinGeniusMLTrainer._generate_fraud_data`: re-seeds the PRNG, draws
the ten feature columns for `int(n*0.8)` normal rows (label 0) and the
remaining rows as fraud (label 1), and concatenates column-wise. -/
def generateFraudData (n : Nat) (_rs : Nat) : FraudTable × Nat :=
  let s0 := npSeed 42
  let nN := nNormal n
  let nF := n - nN
  let (nAmount, s1) := normalDraws 100 50 nN s0
  let (nHour, s2) := randintDraws 0 24 nN s1
  let (nDow, s3) := randintDraws 0 7 nN s2
  let (nLoc, s4) := uniformDraws (7/10) 1 nN s3
  let (nMerch, s5) := uniformDraws (3/10) (9/10) nN s4
  let (nBehav, s6) := uniformDraws (6/10) 1 nN s5
  let (nDev, s7) := uniformDraws (8/10) 1 nN s6
  let (nFreq, s8) := uniformDraws (4/10) (8/10) nN s7
  let (nAmtP, s9) := uniformDraws (5/10) (9/10) nN s8
  let (nTimeP, s10) := uniformDraws (6/10) (9/10) nN s9
  let nLabel : Vec := List.replicate nN 0
  let (fAmount, t1) := normalDraws 500 200 nF s10
  let (fHour, t2) := randintDraws 0 24 nF t1
  let (fDow, t3) := randintDraws 0 7 nF t2
  let (fLoc, t4) := uniformDraws 0 (3/10) nF t3
  let (fMerch, t5) := uniformDraws 0 (5/10) nF t4
  let (fBehav, t6) := uniformDraws 0 (4/10) nF t5
  let (fDev, t7) := uniformDraws 0 (5/10) nF t6
  let (fFreq, t8) := uniformDraws 0 (3/10) nF t7
  let (fAmtP, t9) := uniformDraws 0 (4/10) nF t8
  let (fTimeP, t10) := uniformDraws 0 (3/10) nF t9
  let fLabel : Vec := List.replicate nF 1
  (⟨nAmount ++ fAmount, nHour ++ fHour, nDow ++ fDow, nLoc ++ fLoc,
    nMerch ++ fMerch, nBehav ++ fBehav, nDev ++ fDev, nFreq ++ fFreq,
    nAmtP ++ fAmtP, nTimeP ++ fTimeP, nLabel ++ fLabel⟩, t10)

/-- Rational surrogate for π used in the seasonal-pattern formulas. -/
def piQ : ℚ := 314159265 / 100000000

/-- Rational surrogate for `np.sin` (truncated series); the claims never
inspect the numeric spending values, only shape and determinism. -/
def sinQ (x : ℚ) : ℚ := x - x ^ 3 / 6 + x ^ 5 / 120

/-- Month lengths of the (non-leap) calendar year used to model
`pd.date_range` starting 2023-01-01; the calendar repeats non-leap
years, which no claim can distinguish. -/
def monthLengths : List Nat := [31, 28, 31, 30, 31, 30, 31, 31, 30, 31, 30, 31]

/-- Convert a 0-based day-of-year into (month, day-of-month), 1-based. -/
def monthDayAux : List Nat → Nat → Nat → Nat × Nat
  | [], m, d => (m, d + 1)
  | len :: rest, m, d => if d < len then (m, d + 1) else monthDayAux rest (m + 1) (d - len)

/-- Convert a 0-based day offset from 2023-01-01 to (month, day-of-month). -/
def monthDay (i : Nat) : Nat × Nat := monthDayAux monthLengths 1 (i % 365)

/-- Model of `dates.dayofyear` (1-based) for day offset `i`. -/
def dayOfYear (i : Nat) : Nat := i % 365 + 1

/-- Model of `dates.dayofweek` (Monday = 0) for day offset `i`;
2023-01-01 was a Sunday (= 6). -/
def dayOfWeek (i : Nat) : Nat := (6 + i) % 7

/-- The spending time series produced by `_generate_spending_data`. -/
structure SpendingTable where
  date : List Nat
  spending : Vec
  income : Vec
  day_of_month : List Nat
  day_of_week : List Nat
  month : List Nat
  is_weekend : List Nat
  is_month_end : List Nat
deriving DecidableEq, Repr

/-- Model of `FinGeniusMLTrainer._generate_spending_data`: re-seeds the PRNG,
builds `n` daily rows with seasonal + weekly pattern + noise spending,
an income draw and calendar features. -/
def generateSpendingData (n : Nat) (_rs : Nat) : SpendingTable × Nat :=
  let s0 := npSeed 42
  let idx := List.range n
  let base : Nat → ℚ := fun i => 100 + 20 * sinQ (2 * piQ * (dayOfYear i : ℚ) / 365)
  let weekly : Nat → ℚ := fun i => 10 * sinQ (2 * piQ * (dayOfWeek i : ℚ) / 7)
  let (noise, s1) := normalDraws 0 15 n s0
  let (income, s2) := normalDraws 200 50 n s1
  (⟨idx,
    List.zipWith (fun i e => max 0 (base i + weekly i + e)) idx noise,
    income,
    idx.map (fun i => (monthDay i).2),
    idx.map dayOfWeek,
    idx.map (fun i => (monthDay i).1),
    idx.map (fun i => if 5 ≤ dayOfWeek i then 1 else 0),
    idx.map (fun i => if 25 ≤ (monthDay i).2 then 1 else 0)⟩, s2)

/-- The positive financial terms of `_generate_sentiment_data`. -/
def positiveTerms : List String :=
  ["profit", "gain", "increase", "growth", "positive", "good", "excellent",
   "successful", "profitable", "rising", "bullish", "optimistic", "strong",
   "recovery", "surge", "rally", "breakthrough", "milestone", "achievement"]

/-- The negative financial terms of `_generate_sentiment_data`. -/
def negativeTerms : List String :=
  ["loss", "decrease", "decline", "negative", "bad", "poor", "failing",
   "unprofitable", "falling", "bearish", "pessimistic", "debt", "crash",
   "crisis", "recession", "bankruptcy", "default", "volatile", "risky"]

/-- Model of `np.random.choice terms size`: pick `size` terms with replacement. -/
def chooseWords (terms : List String) : Nat → Nat → List String × Nat
  | 0, s => ([], s)
  | k + 1, s =>
      let (x, s1) := draw s
      let w := terms.getD (x % terms.length) ""
      let (ws, s2) := chooseWords terms k s1
      (w :: ws, s2)

/-- The sentiment corpus: (templated sentence, label) pairs. -/
structure SentimentTable where
  text : List String
  sentiment : List String
deriving DecidableEq, Repr

/-- The sentence-generation loop of `_generate_sentiment_data`: each
iteration draws a coin; heads builds a positive-template sentence from
2–4 positive terms, tails a negative one. -/
def sentimentRows : Nat → Nat → (List String × List String) × Nat
  | 0, s => (([], []), s)
  | n + 1, s =>
      let (r, s1) := draw s
      let (szRaw, s2) := draw s1
      let sz := 2 + szRaw % 3
      if 1 / 2 < toUnit r then
        let (ws, s3) := chooseWords positiveTerms sz s2
        let sentence := "The market shows " ++ String.intercalate " " ws ++ " with strong fundamentals."
        let (rows, s4) := sentimentRows n s3
        ((sentence :: rows.1, "positive" :: rows.2), s4)
      else
        let (ws, s3) := chooseWords negativeTerms sz s2
        let sentence := "Investors worry about " ++ String.intercalate " " ws ++ " affecting returns."
        let (rows, s4) := sentimentRows n s3
        ((sentence :: rows.1, "negative" :: rows.2), s4)

/-- Model of `FinGeniusMLTrainer._generate_sentiment_data`: re-seeds the PRNG and
produces `n` (sentence, sentiment) rows. -/
def generateSentimentData (n : Nat) (_rs : Nat) : SentimentTable × Nat :=
  let s0 := npSeed 42
  let (rows, s1) := sentimentRows n s0
  (⟨rows.1, rows.2⟩, s1)

/-- The bundle returned by `generate_synthetic_data`. -/
structure SynthData where
  fraud : FraudTable
  spending : SpendingTable
  sentiment : SentimentTable

/-- Model of `FinGeniusMLTrainer.generate_synthetic_data`: fraud and spending
tables with `n` samples, sentiment corpus with `n / 2`. -/
def generateSyntheticData (n : Nat) (rs : Nat) : SynthData × Nat :=
  let (f, r1) := generateFraudData n rs
  let (sp, r2) := generateSpendingData n r1
  let (se, r3) := generateSentimentData (n / 2) r2
  (⟨f, sp, se⟩, r3)

/-- The driver's mutable containers (`self.models`, `self.scalers`). -/
structure TrainerState where
  models : List (String × PyObj)
  scalers : List (String × PyObj)
deriving DecidableEq, Repr

/-- A freshly constructed `FinGeniusMLTrainer`: both dicts empty. -/
def emptyState : TrainerState := ⟨[], []⟩

/-- The behaviour of the third-party ML library (sklearn): splitting,
scaling, fitting, scoring, predicting, vectorizing.  The repository
delegates all of these wholesale, so they are parameters of the
embedding; fitted estimators are opaque `PyObj` values. -/
structure MLLib where
  trainTestSplit : Mat → Vec → Mat × Mat × Vec × Vec
  trainTestSplitText : List String → List String → List String × List String × List String × List String
  fitScaler : Mat → PyObj
  transform : PyObj → Mat → Mat
  fitClassifier : String → Mat → Vec → PyObj
  scoreOf : PyObj → Mat → Vec → ℚ
  predict : PyObj → Mat → Vec
  fitVectorizer : List String → PyObj
  vectorize : PyObj → List String → Mat
  fitTextClassifier : Mat → List String → PyObj
  fitIsolationForest : Vec → PyObj

/-- Row-major matrix from a list of equal-length columns
(`data[feature_columns].values`). -/
def matFromCols (cols : List Vec) (nrows : Nat) : Mat :=
  (List.range nrows).map (fun i => cols.map (fun c => c.getD i 0))

/-- The fraud feature matrix `X` in the order of `feature_columns`. -/
def fraudX (t : FraudTable) : Mat :=
  matFromCols [t.amount, t.hour, t.day_of_week, t.location_similarity,
    t.merchant_category, t.user_behavior_score, t.device_fingerprint,
    t.transaction_frequency, t.amount_pattern, t.time_pattern] t.amount.length

/-- The `train_test_split(X, y, test_size=0.2, stratify=y)` call of the
fraud trainer: (X_train, X_test, y_train, y_test). -/
def fraudSplit (lib : MLLib) (t : FraudTable) : Mat × Mat × Vec × Vec :=
  lib.trainTestSplit (fraudX t) t.is_fraud

/-- The `StandardScaler` fitted on the fraud training portion. -/
def fraudScaler (lib : MLLib) (t : FraudTable) : PyObj :=
  lib.fitScaler (fraudSplit lib t).1

/-- The scaled fraud training matrix `X_train_scaled`. -/
def fraudXtrS (lib : MLLib) (t : FraudTable) : Mat :=
  lib.transform (fraudScaler lib t) (fraudSplit lib t).1

/-- The scaled fraud held-out matrix `X_test_scaled`. -/
def fraudXteS (lib : MLLib) (t : FraudTable) : Mat :=
  lib.transform (fraudScaler lib t) (fraudSplit lib t).2.1

/-- The three fitted fraud candidates, in the dict order of the source
(`random_forest`, `neural_network`, `svm`), each fitted on the scaled
training split. -/
def fraudCands (lib : MLLib) (t : FraudTable) : List (String × PyObj) :=
  [("random_forest", lib.fitClassifier "random_forest" (fraudXtrS lib t) (fraudSplit lib t).2.2.1),
   ("neural_network", lib.fitClassifier "neural_network" (fraudXtrS lib t) (fraudSplit lib t).2.2.1),
   ("svm", lib.fitClassifier "svm" (fraudXtrS lib t) (fraudSplit lib t).2.2.1)]

/-- Model of `model.score(X_test_scaled, y_test)`: held-out accuracy of a fitted
fraud candidate. -/
def fraudScoreF (lib : MLLib) (t : FraudTable) : PyObj → ℚ :=
  fun m => lib.scoreOf m (fraudXteS lib t) (fraudSplit lib t).2.2.2

/-- One iteration of the best-model selection loop:
`if score > best_score: best_score = score; best_model = model`. -/
def selectStep (score : PyObj → ℚ) (acc : PyObj × ℚ) (p : String × PyObj) : PyObj × ℚ :=
  if acc.2 < score p.2 then (p.2, score p.2) else acc

/-- The best-model selection loop: `best_model = None; best_score = 0;`
then for each candidate, strict `>` comparison against the best score. -/
def selectBest (score : PyObj → ℚ) (cands : List (String × PyObj)) : PyObj × ℚ :=
  cands.foldl (selectStep score) (PyObj.pynone, 0)

/-- The winning fraud model (possibly `None` if no score beat 0). -/
def fraudBest (lib : MLLib) (t : FraudTable) : PyObj :=
  (selectBest (fraudScoreF lib t) (fraudCands lib t)).1

/-- Model of `m.predict(X)`: a Python attribute call, which raises (returns
`none`) when `m` is `None`. -/
def pyPredict (lib : MLLib) (m : PyObj) (X : Mat) : Option Vec :=
  match m with
  | PyObj.pynone => Option.none
  | PyObj.obj k => some (lib.predict (PyObj.obj k) X)

/-- Model of `FinGeniusMLTrainer.train_fraud_detection_model`: stores the winner
and the scaler under `fraud_detection`, then runs
`best_model.predict(X_test_scaled)` for the report (second component;
`none` = uncaught exception after the dicts were already updated). -/
def trainFraudDetectionModel (lib : MLLib) (t : FraudTable) (st : TrainerState) :
    TrainerState × Option Vec :=
  (⟨dinsert "fraud_detection" (fraudBest lib t) st.models,
    dinsert "fraud_detection" (fraudScaler lib t) st.scalers⟩,
   pyPredict lib (fraudBest lib t) (fraudXteS lib t))

/-- Model of `series.shift(k)`: the first `k` entries undefined (NaN). -/
def shiftO (k : Nat) (xs : Vec) : List (Option ℚ) :=
  (List.replicate k Option.none ++ xs.map some).take xs.length

/-- Model of `series.rolling(window=7).mean()`: undefined before index 6. -/
def rollingMean7 (xs : Vec) : List (Option ℚ) :=
  (List.range xs.length).map (fun i =>
    if 6 ≤ i then some (((xs.drop (i - 6)).take 7).sum / 7) else Option.none)

/-- One spending feature row in the order of `feature_columns`. -/
def spendingRow (t : SpendingTable) (i : Nat) : List ℚ :=
  [t.income.getD i 0, ((t.day_of_month.getD i 0 : Nat) : ℚ),
   ((t.day_of_week.getD i 0 : Nat) : ℚ), ((t.month.getD i 0 : Nat) : ℚ),
   ((t.is_weekend.getD i 0 : Nat) : ℚ), ((t.is_month_end.getD i 0 : Nat) : ℚ)]

/-- Lag-feature construction plus `dropna`: keep the rows where all of
`spending_lag1`, `spending_lag7`, `spending_rolling_mean` are defined,
and build (X, y). -/
def spendingXy (t : SpendingTable) : Mat × Vec :=
  let n := t.spending.length
  let l1 := shiftO 1 t.spending
  let l7 := shiftO 7 t.spending
  let rm := rollingMean7 t.spending
  let keep := (List.range n).filter (fun i =>
    (l1.getD i Option.none).isSome && (l7.getD i Option.none).isSome &&
    (rm.getD i Option.none).isSome)
  (keep.map (fun i => spendingRow t i ++
     [(l1.getD i Option.none).getD 0, (l7.getD i Option.none).getD 0,
      (rm.getD i Option.none).getD 0]),
   keep.map (fun i => t.spending.getD i 0))

/-- Model of `FinGeniusMLTrainer.train_spending_prediction_model`: split, scale,
fit one MLP, store model and scaler under `spending_prediction`. -/
def trainSpendingPredictionModel (lib : MLLib) (t : SpendingTable) (st : TrainerState) :
    TrainerState :=
  let Xy := spendingXy t
  let split := lib.trainTestSplit Xy.1 Xy.2
  let scaler := lib.fitScaler split.1
  let model := lib.fitClassifier "mlp_spending" (lib.transform scaler split.1) split.2.2.1
  ⟨dinsert "spending_prediction" model st.models,
   dinsert "spending_prediction" scaler st.scalers⟩

/-- Model of `FinGeniusMLTrainer.train_sentiment_analysis_model`: stratified text
split, TF-IDF vectorizer fitted on the training text, naive-Bayes fit,
model and vectorizer stored under `sentiment_analysis`. -/
def trainSentimentAnalysisModel (lib : MLLib) (t : SentimentTable) (st : TrainerState) :
    TrainerState :=
  let split := lib.trainTestSplitText t.text t.sentiment
  let vectorizer := lib.fitVectorizer split.1
  let model := lib.fitTextClassifier (lib.vectorize vectorizer split.1) split.2.2.1
  ⟨dinsert "sentiment_analysis" model st.models,
   dinsert "sentiment_analysis" vectorizer st.scalers⟩

/-- Model of `FinGeniusMLTrainer.train_anomaly_detection_model`: fits an
isolation forest on the spending column and stores it under
`anomaly_detection`.  Note: no scaler entry is stored. -/
def trainAnomalyDetectionModel (lib : MLLib) (t : SpendingTable) (st : TrainerState) :
    TrainerState :=
  ⟨dinsert "anomaly_detection" (lib.fitIsolationForest t.spending) st.models,
   st.scalers⟩

/-- The `metadata.json` manifest. -/
structure Metadata where
  trained_at : String
  models : List String
  scalers : List String
  version : String
deriving DecidableEq, Repr

/-- The models directory: serialized-object files keyed by file name,
plus the manifest as a distinguished entry. -/
structure FS where
  files : List (String × PyObj)
  metadata : Option Metadata
deriving DecidableEq, Repr

/-- Serialize every entry of a dict to `<name><suffix>` via
`joblib.dump`. -/
def writeFiles (suffix : String) (entries : List (String × PyObj))
    (files : List (String × PyObj)) : List (String × PyObj) :=
  entries.foldl (fun f p => dinsert (p.1 ++ suffix) p.2 f) files

/-- Model of `FinGeniusMLTrainer.save_models`: dump each model to
`<name>.joblib`, each scaler to `<name>_scaler.joblib`, then write the
manifest with the two key lists. -/
def saveModels (st : TrainerState) (fs : FS) (now : String) : FS :=
  ⟨writeFiles "_scaler.joblib" st.scalers (writeFiles ".joblib" st.models fs.files),
   some ⟨now, dkeys st.models, dkeys st.scalers, "1.0.0"⟩⟩

/-- Log severities relevant to the claims. -/
inductive LogLevel where
  | info
  | warning
deriving DecidableEq, Repr

/-- One emitted log record. -/
structure LogEntry where
  level : LogLevel
  msg : String
deriving DecidableEq, Repr

/-- The per-name loading loop of `load_models`: for each listed name, if
`<name>.joblib` exists, deserialize it into the dict; otherwise skip
(the source has no else-branch, hence no log record for a skip).  The
source uses the suffix `.joblib` (without `_scaler`) in BOTH loops —
line 399 for models and line 405 for scalers. -/
def loadFold (names : List String) (files : List (String × PyObj))
    (d : List (String × PyObj)) : List (String × PyObj) :=
  names.foldl (fun acc n =>
    match dlookup (n ++ ".joblib") files with
    | some v => dinsert n v acc
    | Option.none => acc) d

/-- Model of `FinGeniusMLTrainer.load_models`: warn and return unchanged if the
manifest is missing; otherwise run the two loading loops and log an info
record per loaded entry. -/
def loadModels (st : TrainerState) (fs : FS) : TrainerState × List LogEntry :=
  match fs.metadata with
  | Option.none =>
      (st, [⟨LogLevel.info, "Loading models..."⟩,
            ⟨LogLevel.warning, "No model metadata found. Models may not be trained."⟩])
  | some md =>
      (⟨loadFold md.models fs.files st.models, loadFold md.scalers fs.files st.scalers⟩,
       ⟨LogLevel.info, "Loading models..."⟩ ::
       ((md.models.filter (fun n => (dlookup (n ++ ".joblib") fs.files).isSome)).map
          (fun n => ⟨LogLevel.info, "Loaded " ++ n ++ " model"⟩) ++
        (md.scalers.filter (fun n => (dlookup (n ++ ".joblib") fs.files).isSome)).map
          (fun n => ⟨LogLevel.info, "Loaded " ++ n ++ " scaler"⟩)))

/-- The tail of `train_all_models` after the fraud trainer returned
normally: the remaining three trainers in order, then `save_models`. -/
def afterFraud (lib : MLLib) (data : SynthData) (st1 : TrainerState) (fs : FS)
    (now : String) : TrainerState × Option FS :=
  let st2 := trainSpendingPredictionModel lib data.spending st1
  let st3 := trainSentimentAnalysisModel lib data.sentiment st2
  let st4 := trainAnomalyDetectionModel lib data.spending st3
  (st4, some (saveModels st4 fs now))

/-- The body of `train_all_models` applied to an already generated data
bundle: run the four trainers in order, then save.  If the fraud
trainer's report step raised (`None` winner), the exception propagates:
the partially updated state remains and nothing further runs (second
component `none` = no save happened). -/
def trainAllFrom (lib : MLLib) (data : SynthData) (st : TrainerState) (fs : FS)
    (now : String) : TrainerState × Option FS :=
  let step1 := trainFraudDetectionModel lib data.fraud st
  if step1.2.isSome then afterFraud lib data step1.1 fs now
  else (step1.1, Option.none)

/-- Model of `FinGeniusMLTrainer.train_all_models`: generate the synthetic bundle
(default 10000 samples), then train and save. -/
def trainAllModels (lib : MLLib) (st : TrainerState) (fs : FS) (now : String)
    (rs : Nat) : TrainerState × Option FS :=
  trainAllFrom lib (generateSyntheticData 10000 rs).1 st fs now

/-- A concrete ML-library behaviour used for witnesses: every fit call
returns a distinct tagged object and every score equals `q`. -/
def libConst (q : ℚ) : MLLib :=
  ⟨fun X y => (X, X, y, y),
   fun X y => (X, X, y, y),
   fun _ => PyObj.obj 10,
   fun _ X => X,
   fun n _ _ => PyObj.obj n.length,
   fun _ _ _ => q,
   fun _ X => X.map (fun _ => 0),
   fun _ => PyObj.obj 20,
   fun _ xs => xs.map (fun _ => []),
   fun _ _ => PyObj.obj 30,
   fun _ => PyObj.obj 40⟩

/-- A one-row concrete fraud table used as a witness input. -/
def tinyFraud : FraudTable := ⟨[1], [1], [1], [1], [1], [1], [1], [1], [1], [1], [0]⟩

/-- A concrete trained driver state: one model object and one distinct
scaler object, both stored under the name `fraud_detection`. -/
def c1State : TrainerState :=
  ⟨[("fraud_detection", PyObj.obj 1)], [("fraud_detection", PyObj.obj 2)]⟩

/-! ### Helper lemmas about the embedded operations -/

theorem str_append_cancel {a b s : String} (h : a ++ s = b ++ s) : a = b := by
  have h3 : a.data ++ s.data = b.data ++ s.data := by
    have := congrArg String.data h
    simpa [String.congr_append] using this
  exact String.ext (List.append_cancel_right h3)

theorem dlookup_dinsert_self (k : String) (v : PyObj) (d : List (String × PyObj)) :
    dlookup k (dinsert k v d) = some v := by
  induction d with
  | nil => simp [dinsert, dlookup]
  | cons p rest ih =>
      by_cases h : p.1 = k
      · simp [dinsert, dlookup, h]
      · simp [dinsert, dlookup, h, ih]

theorem dlookup_dinsert_ne {k k' : String} (v : PyObj) (d : List (String × PyObj))
    (h : k' ≠ k) : dlookup k (dinsert k' v d) = dlookup k d := by
  induction d with
  | nil => simp [dinsert, dlookup, h]
  | cons p rest ih =>
      obtain ⟨a, b⟩ := p
      by_cases hp : a = k'
      · subst hp
        simp [dinsert, dlookup, h]
      · simp only [dinsert, if_neg hp]
        by_cases hk : a = k
        · simp [dlookup, hk]
        · simp [dlookup, hk, ih]

theorem dinsert_self_of_lookup {k : String} {v : PyObj} {d : List (String × PyObj)}
    (h : dlookup k d = some v) : dinsert k v d = d := by
  induction d with
  | nil => simp [dlookup] at h
  | cons p rest ih =>
      obtain ⟨a, b⟩ := p
      by_cases hp : a = k
      · simp only [dlookup, if_pos hp, Option.some.injEq] at h
        simp [dinsert, hp, h]
      · simp only [dlookup, if_neg hp] at h
        simp [dinsert, hp, ih h]

theorem dkeys_dinsert_not_mem {k : String} (v : PyObj) {d : List (String × PyObj)}
    (h : k ∉ dkeys d) : dkeys (dinsert k v d) = dkeys d ++ [k] := by
  induction d with
  | nil => simp [dinsert, dkeys]
  | cons p rest ih =>
      obtain ⟨a, b⟩ := p
      rw [dkeys, List.map_cons, List.mem_cons, not_or] at h
      have ha : ¬ a = k := fun hc => h.1 hc.symm
      simp only [dinsert, if_neg ha, dkeys, List.map_cons, List.cons_append]
      exact congrArg (a :: ·) (ih h.2)

theorem mem_dkeys_iff_lookup {k : String} {d : List (String × PyObj)} :
    k ∈ dkeys d ↔ (dlookup k d).isSome := by
  induction d with
  | nil => simp [dkeys, dlookup]
  | cons p rest ih =>
      obtain ⟨a, b⟩ := p
      by_cases hp : a = k
      · simp [dkeys, dlookup, hp]
      · simp only [dkeys, List.map_cons, List.mem_cons, dlookup, if_neg hp]
        constructor
        · rintro (h | h)
          · exact absurd h.symm hp
          · exact ih.mp h
        · intro h
          exact Or.inr (ih.mpr h)

theorem mem_dkeys_dinsert {x k : String} {v : PyObj} {d : List (String × PyObj)} :
    x ∈ dkeys (dinsert k v d) ↔ x ∈ dkeys d ∨ x = k := by
  by_cases hx : x = k
  · subst hx
    simp [mem_dkeys_iff_lookup, dlookup_dinsert_self]
  · have hk : k ≠ x := fun hc => hx hc.symm
    rw [mem_dkeys_iff_lookup, dlookup_dinsert_ne v d hk, ← mem_dkeys_iff_lookup]
    simp [hx]

theorem dlookup_some_mem {k : String} {v : PyObj} {d : List (String × PyObj)}
    (h : dlookup k d = some v) : (k, v) ∈ d := by
  induction d with
  | nil => simp [dlookup] at h
  | cons p rest ih =>
      obtain ⟨a, b⟩ := p
      by_cases hp : a = k
      · simp only [dlookup, if_pos hp, Option.some.injEq] at h
        subst hp
        subst h
        exact List.mem_cons_self _ _
      · simp only [dlookup, if_neg hp] at h
        exact List.mem_cons_of_mem _ (ih h)

theorem dlookup_writeFiles_of_ne {q suffix : String} {entries f : List (String × PyObj)}
    (h : ∀ p ∈ entries, ¬ p.1 ++ suffix = q) :
    dlookup q (writeFiles suffix entries f) = dlookup q f := by
  induction entries generalizing f with
  | nil => simp [writeFiles]
  | cons p rest ih =>
      have hq : ¬ p.1 ++ suffix = q := h p (List.mem_cons_self p rest)
      have hrest : ∀ p' ∈ rest, ¬ p'.1 ++ suffix = q :=
        fun p' hp' => h p' (List.mem_cons_of_mem _ hp')
      calc dlookup q (writeFiles suffix (p :: rest) f)
          = dlookup q (writeFiles suffix rest (dinsert (p.1 ++ suffix) p.2 f)) := rfl
        _ = dlookup q (dinsert (p.1 ++ suffix) p.2 f) := ih hrest
        _ = dlookup q f := dlookup_dinsert_ne _ _ hq

theorem dlookup_writeFiles_mem {n suffix : String} {v : PyObj}
    {entries f : List (String × PyObj)} (hnd : (dkeys entries).Nodup)
    (hmem : (n, v) ∈ entries) :
    dlookup (n ++ suffix) (writeFiles suffix entries f) = some v := by
  induction entries generalizing f with
  | nil => simp at hmem
  | cons p rest ih =>
      rw [dkeys, List.map_cons, List.nodup_cons] at hnd
      rcases List.mem_cons.mp hmem with heq | hrest
      · subst heq
        have hkeys : ∀ p' ∈ rest, ¬ p'.1 ++ suffix = n ++ suffix := by
          intro p' hp' hcon
          have h1 : p'.1 = n := str_append_cancel hcon
          have h2 : p'.1 ∈ List.map Prod.fst rest := List.mem_map_of_mem Prod.fst hp'
          rw [h1] at h2
          exact hnd.1 h2
        calc dlookup (n ++ suffix) (writeFiles suffix ((n, v) :: rest) f)
            = dlookup (n ++ suffix) (writeFiles suffix rest (dinsert (n ++ suffix) v f)) := rfl
          _ = dlookup (n ++ suffix) (dinsert (n ++ suffix) v f) :=
              dlookup_writeFiles_of_ne hkeys
          _ = some v := dlookup_dinsert_self _ _ _
      · exact ih hnd.2 hrest

theorem dlookup_loadFold_not_mem {k : String} {names : List String}
    {files d : List (String × PyObj)} (h : k ∉ names) :
    dlookup k (loadFold names files d) = dlookup k d := by
  induction names generalizing d with
  | nil => simp [loadFold]
  | cons n rest ih =>
      have hne : n ≠ k := fun hc => h (hc ▸ List.mem_cons_self n rest)
      have hrest : k ∉ rest := fun hc => h (List.mem_cons_of_mem _ hc)
      show dlookup k (loadFold rest files _) = dlookup k d
      cases hf : dlookup (n ++ ".joblib") files with
      | none =>
          simp only [loadFold, List.foldl_cons, hf]
          exact ih hrest
      | some v =>
          simp only [loadFold, List.foldl_cons, hf]
          rw [show List.foldl _ (dinsert n v d) rest = loadFold rest files (dinsert n v d) from rfl,
            ih hrest]
          exact dlookup_dinsert_ne _ _ hne

theorem dlookup_loadFold_of_file {n : String} {v : PyObj} {names : List String}
    {files d : List (String × PyObj)} (hmem : n ∈ names)
    (hf : dlookup (n ++ ".joblib") files = some v) :
    dlookup n (loadFold names files d) = some v := by
  induction names generalizing d with
  | nil => simp at hmem
  | cons m rest ih =>
      by_cases hrest : n ∈ rest
      · cases hfm : dlookup (m ++ ".joblib") files with
        | none => simp only [loadFold, List.foldl_cons, hfm]; exact ih hrest
        | some w => simp only [loadFold, List.foldl_cons, hfm]; exact ih hrest
      · have hm : m = n := by
          rcases List.mem_cons.mp hmem with h | h
          · exact h.symm
          · exact absurd h hrest
        subst hm
        simp only [loadFold, List.foldl_cons, hf]
        rw [show List.foldl _ (dinsert m v d) rest = loadFold rest files (dinsert m v d) from rfl,
          dlookup_loadFold_not_mem hrest]
        exact dlookup_dinsert_self _ _ _

theorem loadFold_id {names : List String} {files d : List (String × PyObj)}
    (h : ∀ n ∈ names, ∀ v, dlookup (n ++ ".joblib") files = some v →
      dlookup n d = some v) :
    loadFold names files d = d := by
  induction names with
  | nil => rfl
  | cons m rest ih =>
      have hstep : (match dlookup (m ++ ".joblib") files with
          | some v => dinsert m v d
          | Option.none => d) = d := by
        cases hf : dlookup (m ++ ".joblib") files with
        | none => rfl
        | some v => exact dinsert_self_of_lookup (h m (List.mem_cons_self m rest) v hf)
      show loadFold rest files (match dlookup (m ++ ".joblib") files with
          | some v => dinsert m v d
          | Option.none => d) = d
      rw [hstep]
      exact ih (fun n hn v hv => h n (List.mem_cons_of_mem _ hn) v hv)

theorem not_mem_dkeys_loadFold {k : String} {names : List String}
    {files d : List (String × PyObj)}
    (hf : dlookup (k ++ ".joblib") files = Option.none) (hd : k ∉ dkeys d) :
    k ∉ dkeys (loadFold names files d) := by
  induction names generalizing d with
  | nil => exact hd
  | cons m rest ih =>
      show k ∉ dkeys (loadFold rest files _)
      cases hfm : dlookup (m ++ ".joblib") files with
      | none =>
          simp only [loadFold, List.foldl_cons, hfm]
          exact ih hd
      | some v =>
          simp only [loadFold, List.foldl_cons, hfm]
          refine ih ?_
          intro hc
          rcases mem_dkeys_dinsert.mp hc with h | h
          · exact hd h
          · rw [h] at hf
            rw [hf] at hfm
            exact Option.noConfusion hfm

theorem selectBest_foldl_spec (score : PyObj → ℚ) (cands : List (String × PyObj)) :
    ∀ acc : PyObj × ℚ,
      (cands.foldl (selectStep score) acc = acc ∨
        ∃ p ∈ cands, cands.foldl (selectStep score) acc = (p.2, score p.2)) ∧
      acc.2 ≤ (cands.foldl (selectStep score) acc).2 ∧
      ∀ p ∈ cands, score p.2 ≤ (cands.foldl (selectStep score) acc).2 := by
  induction cands with
  | nil =>
      intro acc
      exact ⟨Or.inl rfl, le_refl _, by simp⟩
  | cons q rest ih =>
      intro acc
      obtain ⟨hor, hle, hall⟩ := ih (selectStep score acc q)
      have hstep : (selectStep score acc q = acc ∨ selectStep score acc q = (q.2, score q.2)) ∧
          acc.2 ≤ (selectStep score acc q).2 ∧ score q.2 ≤ (selectStep score acc q).2 := by
        by_cases hc : acc.2 < score q.2
        · exact ⟨Or.inr (by simp [selectStep, hc]), by simp [selectStep, hc, le_of_lt hc],
            by simp [selectStep, hc]⟩
        · exact ⟨Or.inl (by simp [selectStep, hc]), by simp [selectStep, hc],
            by simp [selectStep, hc, le_of_not_lt hc]⟩
      refine ⟨?_, ?_, ?_⟩
      · rcases hor with h | ⟨p, hp, hr⟩
        · rcases hstep.1 with h2 | h2
          · exact Or.inl (by rw [List.foldl_cons, h, h2])
          · exact Or.inr ⟨q, List.mem_cons_self _ _, by rw [List.foldl_cons, h, h2]⟩
        · exact Or.inr ⟨p, List.mem_cons_of_mem _ hp, by rw [List.foldl_cons, hr]⟩
      · exact le_trans hstep.2.1 (by rw [List.foldl_cons] at *; exact hle)
      · intro p hp
        rcases List.mem_cons.mp hp with h | h
        · rw [h, List.foldl_cons]
          exact le_trans hstep.2.2 hle
        · rw [List.foldl_cons]
          exact hall p h

theorem selectBest_of_pos {score : PyObj → ℚ} {cands : List (String × PyObj)}
    (h : ∃ p ∈ cands, 0 < score p.2) :
    (selectBest score cands).1 ∈ cands.map Prod.snd ∧
    (∀ p ∈ cands, score p.2 ≤ score (selectBest score cands).1) := by
  obtain ⟨spec1, _, spec3⟩ := selectBest_foldl_spec score cands (PyObj.pynone, 0)
  obtain ⟨p0, hp0, hpos⟩ := h
  have hr2 : 0 < (selectBest score cands).2 :=
    lt_of_lt_of_le hpos (spec3 p0 hp0)
  rcases spec1 with hacc | ⟨p, hp, hr⟩
  · rw [show selectBest score cands = List.foldl (selectStep score) (PyObj.pynone, 0) cands
        from rfl, hacc] at hr2
    exact absurd hr2 (by norm_num)
  · have hr' : selectBest score cands = (p.2, score p.2) := hr
    constructor
    · rw [hr']
      exact List.mem_map_of_mem Prod.snd hp
    · intro q hq
      have := spec3 q hq
      rw [show (List.foldl (selectStep score) (PyObj.pynone, 0) cands) =
        selectBest score cands from rfl, hr'] at this
      rw [hr']
      exact this

theorem selectBest_zero (score : PyObj → ℚ) :
    ∀ cands, (∀ p ∈ cands, score p.2 = 0) →
      selectBest score cands = (PyObj.pynone, 0) := by
  intro cands
  induction cands with
  | nil => intro _; rfl
  | cons q rest ih =>
      intro h
      have hq : score q.2 = 0 := h q (List.mem_cons_self _ _)
      show List.foldl (selectStep score) (selectStep score (PyObj.pynone, 0) q) rest = _
      rw [show selectStep score (PyObj.pynone, 0) q = (PyObj.pynone, 0) from by
        simp [selectStep, hq]]
      exact ih (fun p hp => h p (List.mem_cons_of_mem _ hp))

theorem drawVec_length (n s : Nat) : (drawVec n s).1.length = n := by
  induction n generalizing s with
  | zero => rfl
  | succ m ih => simp [drawVec, draw, ih]

theorem nNormal_le (n : Nat) : nNormal n ≤ n := by
  have h1 : n * 8 ≤ n * 10 := Nat.mul_le_mul_left n (by norm_num)
  calc n * 8 / 10 ≤ n * 10 / 10 := Nat.div_le_div_right h1
    _ = n := Nat.mul_div_cancel n (by norm_num)

/-! ### Claim theorems -/

/-- C5: for every sample count `N ≥ 0` the fraud generator succeeds and
returns a table whose columns all have exactly `N` rows, of which
exactly `N - floor(0.8 * N)` carry the positive fraud label `1`. -/
theorem C5_fraud_generator_rows (n rs : Nat) :
    (generateFraudData n rs).1.is_fraud.length = n ∧
    (generateFraudData n rs).1.is_fraud.count 1 = n - n * 8 / 10 ∧
    (generateFraudData n rs).1.amount.length = n ∧
    (generateFraudData n rs).1.hour.length = n ∧
    (generateFraudData n rs).1.day_of_week.length = n ∧
    (generateFraudData n rs).1.location_similarity.length = n ∧
    (generateFraudData n rs).1.merchant_category.length = n ∧
    (generateFraudData n rs).1.user_behavior_score.length = n ∧
    (generateFraudData n rs).1.device_fingerprint.length = n ∧
    (generateFraudData n rs).1.transaction_frequency.length = n ∧
    (generateFraudData n rs).1.amount_pattern.length = n ∧
    (generateFraudData n rs).1.time_pattern.length = n := by
  have hle := nNormal_le n
  refine ⟨?_, ?_, ?_, ?_, ?_, ?_, ?_, ?_, ?_, ?_, ?_, ?_⟩ <;>
    simp [generateFraudData, normalDraws, uniformDraws, randintDraws,
      drawVec_length, List.count_append, List.count_replicate, nNormal] at hle ⊢ <;>
    omega

/-- C8: each sub-generator re-seeds the random source on entry, so its
output table is independent of the incoming PRNG state: two invocations
with the same sample count yield identical tables regardless of what ran
in between. -/
theorem C8_generators_reseed_independently (n s₁ s₂ : Nat) :
    (generateFraudData n s₁).1 = (generateFraudData n s₂).1 ∧
    (generateSpendingData n s₁).1 = (generateSpendingData n s₂).1 ∧
    (generateSentimentData n s₁).1 = (generateSentimentData n s₂).1 :=
  ⟨rfl, rfl, rfl⟩

/-- C4: when `metadata.json` does not exist, `load_models` logs a
warning and returns without touching the driver state (a no-op on both
mappings). -/
theorem C4_load_without_manifest_noop (st : TrainerState) (fs : FS)
    (h : fs.metadata = Option.none) :
    loadModels st fs = (st,
      [⟨LogLevel.info, "Loading models..."⟩,
       ⟨LogLevel.warning, "No model metadata found. Models may not be trained."⟩]) := by
  unfold loadModels
  rw [h]

theorem C4_load_without_manifest_noop_witness :
    (FS.mk [] Option.none).metadata = Option.none ∧
    loadModels c1State ⟨[], Option.none⟩ = (c1State,
      [⟨LogLevel.info, "Loading models..."⟩,
       ⟨LogLevel.warning, "No model metadata found. Models may not be trained."⟩]) :=
  ⟨rfl, C4_load_without_manifest_noop c1State ⟨[], Option.none⟩ rfl⟩

/-- C3 counterexample: with a manifest listing `m1` and no backing file,
`load_models` leaves `m1` absent but emits NO warning entry at all — the
claim's "emits a logged warning for that skipped name" is false (the
loop has no else-branch). -/
theorem C3_missing_file_no_warning_counterexample :
    ((loadModels emptyState ⟨[], some ⟨"t", ["m1"], [], "1.0.0"⟩⟩).2.filter
      (fun e => e.level == LogLevel.warning)) = [] ∧
    "m1" ∉ dkeys (loadModels emptyState ⟨[], some ⟨"t", ["m1"], [], "1.0.0"⟩⟩).1.models := by
  decide

/-- C3 amended: for every manifest and listed model name whose backing
file is absent, `load_models` raises no exception and leaves that name
absent from the model mapping, but the skip is silent: every log record
the call emits is at info level (no warning for the skipped name). -/
theorem C3_missing_file_skipped_silently (st : TrainerState) (fs : FS) (md : Metadata)
    (name : String) (hmd : fs.metadata = some md) (_hmem : name ∈ md.models)
    (hfile : dlookup (name ++ ".joblib") fs.files = Option.none)
    (habs : name ∉ dkeys st.models) :
    name ∉ dkeys (loadModels st fs).1.models ∧
    ∀ e ∈ (loadModels st fs).2, e.level = LogLevel.info := by
  unfold loadModels
  rw [hmd]
  constructor
  · exact not_mem_dkeys_loadFold hfile habs
  · intro e he
    rcases List.mem_cons.mp he with h | h
    · rw [h]
    · rcases List.mem_append.mp h with h2 | h2
      · obtain ⟨nm, _, hW⟩ := List.mem_map.mp h2
        rw [← hW]
      · obtain ⟨nm, _, hW⟩ := List.mem_map.mp h2
        rw [← hW]

theorem C3_missing_file_skipped_silently_witness :
    "m1" ∉ dkeys (loadModels emptyState ⟨[], some ⟨"t", ["m1"], [], "1.0.0"⟩⟩).1.models :=
  (C3_missing_file_skipped_silently emptyState ⟨[], some ⟨"t", ["m1"], [], "1.0.0"⟩⟩
    ⟨"t", ["m1"], [], "1.0.0"⟩ "m1" rfl (by decide) rfl (by decide)).1

/-- C7: calling `load_models` twice in sequence against the same on-disk
state leaves the driver state after the second call literally equal to
the state after the first call (same key sets, same objects by value). -/
theorem C7_load_idempotent (st : TrainerState) (fs : FS) :
    (loadModels (loadModels st fs).1 fs).1 = (loadModels st fs).1 := by
  cases hmd : fs.metadata with
  | none => simp [loadModels, hmd]
  | some md =>
      simp only [loadModels, hmd]
      congr 1
      · exact loadFold_id (fun n hn v hv => dlookup_loadFold_of_file hn hv)
      · exact loadFold_id (fun n hn v hv => dlookup_loadFold_of_file hn hv)

/-- C1 failing input: a driver holding model `obj 1` and scaler `obj 2`
under `fraud_detection`.  `save_models` writes the scaler to
`fraud_detection_scaler.joblib`, but `load_models` deserializes the
scaler entry from `fraud_detection.joblib` (the MODEL file, source line
405), so the loaded scaler is `obj 1`, not the saved scaler `obj 2`. -/
theorem C1_scaler_loaded_from_model_file :
    dlookup "fraud_detection_scaler.joblib"
      (saveModels c1State ⟨[], Option.none⟩ "t").files = some (PyObj.obj 2) ∧
    dlookup "fraud_detection" c1State.scalers = some (PyObj.obj 2) ∧
    dlookup "fraud_detection"
      (loadModels emptyState (saveModels c1State ⟨[], Option.none⟩ "t")).1.scalers =
      some (PyObj.obj 1) := by
  decide

/-- C2: models round-trip through `save_models` / `load_models` into a
fresh driver: the loaded model mapping has the same key set, binds every
key to the same object by value, and therefore yields the same
prediction under any prediction function.  Hypotheses: the model dict
has (as every Python dict) distinct keys, and no model name collides
with a scaler's `_scaler`-suffixed file name (true of the four fixed
training names). -/
theorem C2_model_round_trip (st : TrainerState) (fs : FS) (now : String)
    (hnd : (dkeys st.models).Nodup)
    (hcol : ∀ m ∈ dkeys st.models, ∀ k ∈ dkeys st.scalers, m ≠ k ++ "_scaler") :
    (∀ x, x ∈ dkeys (loadModels emptyState (saveModels st fs now)).1.models ↔
      x ∈ dkeys st.models) ∧
    (∀ x, dlookup x (loadModels emptyState (saveModels st fs now)).1.models =
      dlookup x st.models) ∧
    (∀ (p : PyObj → ℚ) x m m', dlookup x st.models = some m →
      dlookup x (loadModels emptyState (saveModels st fs now)).1.models = some m' →
      p m' = p m) := by
  have hfileA : ∀ x v, dlookup x st.models = some v →
      dlookup (x ++ ".joblib") (saveModels st fs now).files = some v := by
    intro x v hv
    have hxmem : x ∈ dkeys st.models := mem_dkeys_iff_lookup.mpr (by rw [hv]; rfl)
    have hsc : ∀ p ∈ st.scalers, ¬ p.1 ++ "_scaler.joblib" = x ++ ".joblib" := by
      intro p hp hcon
      have h0 : "_scaler.joblib" = "_scaler" ++ ".joblib" := by decide
      rw [h0, ← String.append_assoc] at hcon
      have h1 : p.1 ++ "_scaler" = x := str_append_cancel hcon
      have h2 : p.1 ∈ dkeys st.scalers := List.mem_map_of_mem Prod.fst hp
      exact hcol x hxmem p.1 h2 h1.symm
    show dlookup (x ++ ".joblib")
      (writeFiles "_scaler.joblib" st.scalers (writeFiles ".joblib" st.models fs.files)) = some v
    rw [dlookup_writeFiles_of_ne hsc]
    exact dlookup_writeFiles_mem hnd (dlookup_some_mem hv)
  have hmain : ∀ x, dlookup x (loadModels emptyState (saveModels st fs now)).1.models =
      dlookup x st.models := by
    intro x
    show dlookup x (loadFold (dkeys st.models) (saveModels st fs now).files []) =
      dlookup x st.models
    by_cases hx : x ∈ dkeys st.models
    · obtain ⟨v, hv⟩ := Option.isSome_iff_exists.mp (mem_dkeys_iff_lookup.mp hx)
      rw [hv]
      exact dlookup_loadFold_of_file hx (hfileA x v hv)
    · rw [dlookup_loadFold_not_mem hx]
      have hnone : dlookup x st.models = Option.none := by
        rcases h : dlookup x st.models with _ | v
        · rfl
        · exact absurd (mem_dkeys_iff_lookup.mpr (by rw [h]; rfl)) hx
      rw [hnone]
      rfl
  refine ⟨?_, hmain, ?_⟩
  · intro x
    rw [mem_dkeys_iff_lookup, mem_dkeys_iff_lookup, hmain]
  · intro p x m m' hm hm'
    rw [hmain, hm] at hm'
    rw [Option.some.inj hm']

theorem C2_model_round_trip_witness :
    (dkeys c1State.models).Nodup ∧
    dlookup "fraud_detection"
      (loadModels emptyState (saveModels c1State ⟨[], Option.none⟩ "t")).1.models =
      dlookup "fraud_detection" c1State.models :=
  ⟨by decide,
   (C2_model_round_trip c1State ⟨[], Option.none⟩ "t" (by decide) (by decide)).2.1
     "fraud_detection"⟩

/-- C6 counterexample: a library behaviour in which all three candidates
score a held-out accuracy of exactly 0 (`libConst 0`) on the concrete
table `tinyFraud`.  The stored `fraud_detection` entry is then `None`,
which is not one of the three fitted classifiers, refuting the claim
that the stored entry is always the highest-accuracy candidate. -/
theorem C6_zero_scores_counterexample :
    dlookup "fraud_detection"
      (trainFraudDetectionModel (libConst 0) tinyFraud emptyState).1.models =
      some PyObj.pynone ∧
    PyObj.pynone ∉ (fraudCands (libConst 0) tinyFraud).map Prod.snd := by
  decide

/-- C6 amended: provided at least one candidate's held-out accuracy is
strictly positive, `train_fraud_detection_model` trains exactly the
three classifier types, and stores under `fraud_detection` exactly one
model — a candidate attaining the highest held-out accuracy — together
with the scaler fitted on the training portion; the mappings receive a
single entry each (no other candidate is retained). -/
theorem C6_best_of_three_selection (lib : MLLib) (t : FraudTable) (st : TrainerState)
    (h : ∃ p ∈ fraudCands lib t, 0 < fraudScoreF lib t p.2) :
    (fraudCands lib t).map Prod.fst = ["random_forest", "neural_network", "svm"] ∧
    fraudBest lib t ∈ (fraudCands lib t).map Prod.snd ∧
    (∀ p ∈ fraudCands lib t, fraudScoreF lib t p.2 ≤ fraudScoreF lib t (fraudBest lib t)) ∧
    (trainFraudDetectionModel lib t st).1.models =
      dinsert "fraud_detection" (fraudBest lib t) st.models ∧
    (trainFraudDetectionModel lib t st).1.scalers =
      dinsert "fraud_detection" (fraudScaler lib t) st.scalers := by
  obtain ⟨hmem, hmax⟩ := selectBest_of_pos h
  exact ⟨rfl, hmem, hmax, rfl, rfl⟩

theorem C6_best_of_three_selection_witness :
    (∃ p ∈ fraudCands (libConst 1) tinyFraud, 0 < fraudScoreF (libConst 1) tinyFraud p.2) ∧
    fraudBest (libConst 1) tinyFraud ∈ (fraudCands (libConst 1) tinyFraud).map Prod.snd :=
  ⟨by decide, (C6_best_of_three_selection (libConst 1) tinyFraud emptyState (by decide)).2.1⟩

/-- C10: the selection loop starts from `best_score = 0` with a strict
comparison, so if every candidate's held-out accuracy is exactly 0 the
mapping receives `None` under `fraud_detection` (hence no fitted
classifier is stored) and the subsequent prediction/report step fails
(an attribute access on `None`). -/
theorem C10_all_zero_scores_stores_none (lib : MLLib) (t : FraudTable) (st : TrainerState)
    (h : ∀ p ∈ fraudCands lib t, fraudScoreF lib t p.2 = 0) :
    dlookup "fraud_detection" (trainFraudDetectionModel lib t st).1.models =
      some PyObj.pynone ∧
    (∀ m ∈ (fraudCands lib t).map Prod.snd, m ≠ PyObj.pynone →
      dlookup "fraud_detection" (trainFraudDetectionModel lib t st).1.models ≠ some m) ∧
    (trainFraudDetectionModel lib t st).2 = Option.none := by
  have hbest : fraudBest lib t = PyObj.pynone := by
    unfold fraudBest
    rw [selectBest_zero _ _ h]
  have h1 : dlookup "fraud_detection" (trainFraudDetectionModel lib t st).1.models =
      some PyObj.pynone := by
    show dlookup "fraud_detection" (dinsert "fraud_detection" (fraudBest lib t) st.models) = _
    rw [hbest]
    exact dlookup_dinsert_self _ _ _
  refine ⟨h1, ?_, ?_⟩
  · intro m _ hm hcon
    rw [h1] at hcon
    exact hm (Option.some.inj hcon).symm
  · show pyPredict lib (fraudBest lib t) _ = _
    rw [hbest]
    rfl

theorem C10_all_zero_scores_stores_none_witness :
    (trainFraudDetectionModel (libConst 0) tinyFraud emptyState).2 = Option.none :=
  (C10_all_zero_scores_stores_none (libConst 0) tinyFraud emptyState (by decide)).2.2

theorem dkeys_models_chain (v1 v2 v3 v4 : PyObj) :
    dkeys (dinsert "anomaly_detection" v4 (dinsert "sentiment_analysis" v3
      (dinsert "spending_prediction" v2 (dinsert "fraud_detection" v1 [])))) =
    ["fraud_detection", "spending_prediction", "sentiment_analysis", "anomaly_detection"] := by
  have h1 : dkeys (dinsert "fraud_detection" v1 ([] : List (String × PyObj))) =
      ["fraud_detection"] := by
    simp [dinsert, dkeys]
  have h2 : dkeys (dinsert "spending_prediction" v2
      (dinsert "fraud_detection" v1 [])) = ["fraud_detection", "spending_prediction"] := by
    rw [dkeys_dinsert_not_mem v2 (by rw [h1]; decide), h1]
    rfl
  have h3 : dkeys (dinsert "sentiment_analysis" v3 (dinsert "spending_prediction" v2
      (dinsert "fraud_detection" v1 []))) =
      ["fraud_detection", "spending_prediction", "sentiment_analysis"] := by
    rw [dkeys_dinsert_not_mem v3 (by rw [h2]; decide), h2]
    rfl
  rw [dkeys_dinsert_not_mem v4 (by rw [h3]; decide), h3]
  rfl

theorem dkeys_scalers_chain (v1 v2 v3 : PyObj) :
    dkeys (dinsert "sentiment_analysis" v3 (dinsert "spending_prediction" v2
      (dinsert "fraud_detection" v1 []))) =
    ["fraud_detection", "spending_prediction", "sentiment_analysis"] := by
  have h1 : dkeys (dinsert "fraud_detection" v1 ([] : List (String × PyObj))) =
      ["fraud_detection"] := by
    simp [dinsert, dkeys]
  have h2 : dkeys (dinsert "spending_prediction" v2
      (dinsert "fraud_detection" v1 [])) = ["fraud_detection", "spending_prediction"] := by
    rw [dkeys_dinsert_not_mem v2 (by rw [h1]; decide), h1]
    rfl
  rw [dkeys_dinsert_not_mem v3 (by rw [h2]; decide), h2]
  rfl

theorem trainAllFrom_abort (lib : MLLib) (data : SynthData) (st : TrainerState)
    (fs : FS) (now : String) (hb : fraudBest lib data.fraud = PyObj.pynone) :
    trainAllFrom lib data st fs now =
      ((trainFraudDetectionModel lib data.fraud st).1, Option.none) := by
  have hstep2 : (trainFraudDetectionModel lib data.fraud st).2 = Option.none := by
    show pyPredict lib (fraudBest lib data.fraud) _ = _
    rw [hb]
    rfl
  show (if (trainFraudDetectionModel lib data.fraud st).2.isSome
      then afterFraud lib data (trainFraudDetectionModel lib data.fraud st).1 fs now
      else ((trainFraudDetectionModel lib data.fraud st).1, Option.none)) = _
  rw [hstep2]
  simp

theorem trainAllFrom_complete (lib : MLLib) (data : SynthData) (st : TrainerState)
    (fs : FS) (now : String) (k : Nat) (hb : fraudBest lib data.fraud = PyObj.obj k) :
    trainAllFrom lib data st fs now =
      (trainAnomalyDetectionModel lib data.spending
        (trainSentimentAnalysisModel lib data.sentiment
          (trainSpendingPredictionModel lib data.spending
            (trainFraudDetectionModel lib data.fraud st).1)),
       some (saveModels (trainAnomalyDetectionModel lib data.spending
          (trainSentimentAnalysisModel lib data.sentiment
            (trainSpendingPredictionModel lib data.spending
              (trainFraudDetectionModel lib data.fraud st).1))) fs now)) := by
  have hstep2 : (trainFraudDetectionModel lib data.fraud st).2 =
      some (lib.predict (PyObj.obj k) (fraudXteS lib data.fraud)) := by
    show pyPredict lib (fraudBest lib data.fraud) _ = _
    rw [hb]
    rfl
  show (if (trainFraudDetectionModel lib data.fraud st).2.isSome
      then afterFraud lib data (trainFraudDetectionModel lib data.fraud st).1 fs now
      else ((trainFraudDetectionModel lib data.fraud st).1, Option.none)) = _
  rw [hstep2]
  simp only [Option.isSome_some, if_true]
  rfl

/-- C9 counterexample: one completed `train_all_models` run (the save
step happened, so the run did not abort) after which
`anomaly_detection` is a key of the model mapping but has no entry in
the scaler mapping — the anomaly trainer stores no scaler. -/
theorem C9_anomaly_without_scaler_counterexample :
    ((trainAllModels (libConst 1) emptyState ⟨[], Option.none⟩ "t" 0).2).isSome ∧
    "anomaly_detection" ∈
      dkeys (trainAllModels (libConst 1) emptyState ⟨[], Option.none⟩ "t" 0).1.models ∧
    "anomaly_detection" ∉
      dkeys (trainAllModels (libConst 1) emptyState ⟨[], Option.none⟩ "t" 0).1.scalers := by
  decide

/-- C9 amended: after a completed `train_all_models` run from a fresh
driver, the model mapping holds the four training names and the scaler
mapping the first three: every model name EXCEPT `anomaly_detection` has
a scaler entry under the same name; `anomaly_detection` has none. -/
theorem C9_parallel_scaler_mapping (lib : MLLib) (fs : FS) (now : String) (rs : Nat)
    (h : ((trainAllModels lib emptyState fs now rs).2).isSome) :
    dkeys (trainAllModels lib emptyState fs now rs).1.models =
      ["fraud_detection", "spending_prediction", "sentiment_analysis",
       "anomaly_detection"] ∧
    dkeys (trainAllModels lib emptyState fs now rs).1.scalers =
      ["fraud_detection", "spending_prediction", "sentiment_analysis"] ∧
    ∀ name ∈ dkeys (trainAllModels lib emptyState fs now rs).1.models,
      name ≠ "anomaly_detection" →
        name ∈ dkeys (trainAllModels lib emptyState fs now rs).1.scalers := by
  cases hb : fraudBest lib (generateSyntheticData 10000 rs).1.fraud with
  | pynone =>
      exfalso
      have hT := trainAllFrom_abort lib (generateSyntheticData 10000 rs).1 emptyState fs now hb
      have h2 : (trainAllModels lib emptyState fs now rs).2 = Option.none := by
        show (trainAllFrom lib (generateSyntheticData 10000 rs).1 emptyState fs now).2 = _
        rw [hT]
      rw [h2] at h
      simp at h
  | obj k =>
      have hT := trainAllFrom_complete lib (generateSyntheticData 10000 rs).1 emptyState
        fs now k hb
      have e1 : dkeys (trainAllModels lib emptyState fs now rs).1.models =
          ["fraud_detection", "spending_prediction", "sentiment_analysis",
           "anomaly_detection"] := by
        show dkeys (trainAllFrom lib (generateSyntheticData 10000 rs).1 emptyState
          fs now).1.models = _
        rw [hT]
        exact dkeys_models_chain _ _ _ _
      have e2 : dkeys (trainAllModels lib emptyState fs now rs).1.scalers =
          ["fraud_detection", "spending_prediction", "sentiment_analysis"] := by
        show dkeys (trainAllFrom lib (generateSyntheticData 10000 rs).1 emptyState
          fs now).1.scalers = _
        rw [hT]
        exact dkeys_scalers_chain _ _ _
      refine ⟨e1, e2, ?_⟩
      intro name hname hne
      rw [e1] at hname
      rw [e2]
      simp only [List.mem_cons, List.not_mem_nil, or_false] at hname
      rcases hname with h1 | h1 | h1 | h1
      · rw [h1]
        decide
      · rw [h1]
        decide
      · rw [h1]
        decide
      · exact absurd h1 hne

theorem C9_parallel_scaler_mapping_witness :
    ((trainAllModels (libConst 1) emptyState ⟨[], Option.none⟩ "t" 0).2).isSome ∧
    dkeys (trainAllModels (libConst 1) emptyState ⟨[], Option.none⟩ "t" 0).1.scalers =
      ["fraud_detection", "spending_prediction", "sentiment_analysis"] :=
  ⟨by decide,
   (C9_parallel_scaler_mapping (libConst 1) ⟨[], Option.none⟩ "t" 0 (by decide)).2.1⟩
